import Mathlib

/-
Verification of the gp project service: a Fastify HTTP service storing
"project" records keyed by package name, with a region-gated endpoint
`/br/:key` that reveals a record based on the requester's IP-derived country
code. The repository contains several evolving variants of the same service
(src/src/app.ts, src/src/routes/root.ts, src/unnamed/part_000,
src/unnamed/part_001); the `/br/:key` decision procedure is line-for-line
identical across them and is embedded once below.
-/

namespace GP

/-- A JSON object, modelled as an ordered association list of fields.
Field values are modelled as strings, matching the TypeScript interface
`ProjectData` (`code?: string; ip?: string; packageName?: string`): the
fields the program inspects are typed `string`, and the remaining fields are
opaque pass-through data never interpreted. -/
abbrev Fields := List (String × String)

/-- JavaScript property lookup `obj[name]` on an object literal: the value of
the first field named `name` (a genuine JS object has no duplicate keys), or
`none` when the key is absent (JS `undefined`). -/
def getField : Fields → String → Option String
  | [], _ => none
  | kv :: rest, name => if kv.1 = name then some kv.2 else getField rest name

/-- A stored project record: the interface `ProjectData` of src/src/app.ts
lines 28-32 (an object with optional `code`, `ip` and arbitrary further
fields). -/
structure ProjectData where
  fields : Fields
deriving DecidableEq

/-- The JS access `projectData.code` (src/src/app.ts line 115 etc.). -/
def ProjectData.code (p : ProjectData) : Option String := getField p.fields "code"

/-- The JS access `projectData.ip`; `none` means the record has no `ip` key,
so that the JS test `"ip" in projectData` (src/src/app.ts line 112) is
`p.ip ≠ none`. -/
def ProjectData.ip (p : ProjectData) : Option String := getField p.fields "ip"

/-- The in-memory cache `projects` (a plain JS object mapping package name to
record, src/src/routes/root.ts line 68). -/
abbrev Cache := String → Option ProjectData

/-- JS single-key assignment `projects[key] = data`. -/
def setCache (c : Cache) (key : String) (p : ProjectData) : Cache :=
  fun q => if q = key then some p else c q

/-- Outcome of one geolocation HTTP call to ip-api.com, the external
collaborator of `isIPFromBrazil` / `isAccessibleRegion`. `country c` is a
successful response whose data carries `countryCode` equal to `c`;
`failure` is a network error, a timeout, or a response without a usable
`countryCode` field (the code's `catch` arm and its
`response.data && response.data.countryCode` guard both yield `false`,
src/src/routes/root.ts lines 182-190). -/
inductive GeoOutcome where
  | country (c : String)
  | failure
deriving DecidableEq

/-- `isIPFromBrazil` (src/src/app.ts lines 62-76, src/src/routes/root.ts
lines 173-191): `false` for a JS-falsy ip (null or the empty string, the
`!ip` guard); otherwise compares the looked-up `countryCode` with `"BR"`,
with any failure or falsy `countryCode` giving `false`. -/
def isIPFromBrazil (ip : Option String) (geo : GeoOutcome) : Bool :=
  match ip with
  | none => false
  | some ipStr =>
    if ipStr = "" then false
    else
      match geo with
      | .country c => if c = "" then false else decide (c = "BR")
      | .failure => false

/-- `isAccessibleRegion` (src/src/app.ts lines 149-163, src/src/routes/root.ts
lines 193-211): `false` when ip or the target countryCode is JS-falsy (the
`!ip || !countryCode` guard); otherwise compares the looked-up `countryCode`
with the target, with any failure or falsy looked-up code giving `false`. -/
def isAccessibleRegion (ip : Option String) (countryCode : Option String)
    (geo : GeoOutcome) : Bool :=
  match ip, countryCode with
  | none, _ => false
  | some _, none => false
  | some ipStr, some cc =>
    if ipStr = "" ∨ cc = "" then false
    else
      match geo with
      | .country c => if c = "" then false else decide (c = cc)
      | .failure => false

/-- Modelled from the spec: the Geolocation Lookup contract of §4.2,
`resolveCountry(ip) -> countryCode | unknown` (`none` is "unknown"). An
absent or falsy client IP yields unknown without a call; a failed call or a
response without a usable countryCode yields unknown. This is the
spec-level vocabulary ("resolved country") the claims are stated in; the
source performs the same lookup inline inside `isIPFromBrazil` and
`isAccessibleRegion`. -/
def resolveCountry (ip : Option String) (geo : GeoOutcome) : Option String :=
  match ip with
  | none => none
  | some ipStr =>
    if ipStr = "" then none
    else
      match geo with
      | .country c => if c = "" then none else some c
      | .failure => none

/-- Client IP extraction of the `/br/:key` handler (src/src/app.ts lines
101-102): the first comma-separated entry of the `x-forwarded-for` header,
trimmed; a missing or JS-falsy header gives null. -/
def extractRequestIp (xForwardedFor : Option String) : Option String :=
  match xForwardedFor with
  | none => none
  | some s => if s = "" then none else some (((s.splitOn ",").headD "").trim)

/-- The body of an HTTP response of this service. `record p` is the JSON of
the record `p`; `emptyObj` is the empty JSON object (the literal `{}` body);
the error constructors are the two JSON error bodies the service can send. -/
inductive ResponseBody where
  | record (p : ProjectData)
  | emptyObj
  | errorNotFound
  | errorSaveFailed
deriving DecidableEq

/-- An HTTP response: status code and body. -/
structure HttpResponse where
  status : Nat
  body : ResponseBody
deriving DecidableEq

/-- The `GET /br/:key` handler (src/src/app.ts lines 98-147; identical in
src/src/routes/root.ts lines 233-282 and 570-619, src/unnamed/part_001
lines 167-215): fetch the record from the cache, return `{}` when absent;
with an `ip` field equal to `""` gate only on `code === "2"`; with a
non-empty `ip` field gate on `isAccessibleRegion`; with no `ip` field gate
on `isIPFromBrazil`. Every return is an object, so the status is always
200. `geo` is the outcome of the single geolocation call the handler may
make. -/
def brHandler (projects : Cache) (key : String) (xForwardedFor : Option String)
    (geo : GeoOutcome) : HttpResponse :=
  let requestIp := extractRequestIp xForwardedFor
  match projects key with
  | none => ⟨200, .emptyObj⟩
  | some projectData =>
    match projectData.ip with
    | some ipVal =>
      if ipVal = "" then
        if projectData.code = some "2" then ⟨200, .record projectData⟩
        else ⟨200, .emptyObj⟩
      else
        if isAccessibleRegion requestIp (some ipVal) geo then
          if projectData.code = some "2" then ⟨200, .record projectData⟩
          else ⟨200, .emptyObj⟩
        else ⟨200, .emptyObj⟩
    | none =>
      if isIPFromBrazil requestIp geo then
        if projectData.code = some "2" then ⟨200, .record projectData⟩
        else ⟨200, .emptyObj⟩
      else if projectData.code = some "1" then ⟨200, .emptyObj⟩
      else ⟨200, .emptyObj⟩

/-- The `GET /pp/:key` handler (src/src/app.ts lines 84-95): the cached
record (200) when present — every record object is JS-truthy — else 404 with
`{"error":"Project not found"}`. -/
def ppHandler (projects : Cache) (key : String) : HttpResponse :=
  match projects key with
  | some projectData => ⟨200, .record projectData⟩
  | none => ⟨404, .errorNotFound⟩

/-- The `GET /p/all` handler (src/src/app.ts lines 79-81): returns the whole
cached mapping. -/
def pAllHandler (projects : Cache) : Cache := projects

/-- The converged `POST /p/update/:key` handler (src/src/routes/root.ts lines
285-305; likewise src/unnamed/part_001 lines 218-233): assign the body into
the in-memory cache, then attempt the durable save; `saveOk` is whether
`saveProject` succeeded (it returns `false` rather than throwing on any
storage failure). Both arms respond 200 with the string body `"{}"` — a
durable-write failure is only logged. Returns the new cache and the
response. -/
def updateProject (projects : Cache) (key : String) (data : ProjectData)
    (saveOk : Bool) : Cache × HttpResponse :=
  let projects' := setCache projects key data
  if saveOk then (projects', ⟨200, .emptyObj⟩)
  else (projects', ⟨200, .emptyObj⟩)

/-- The earlier `POST /p/update/:key` variant at src/src/routes/root.ts lines
621-640: same cache assignment, but a failed durable save is answered with
status 500 and `{"error":"Failed to save project"}`. -/
def updateProject500 (projects : Cache) (key : String) (data : ProjectData)
    (saveOk : Bool) : Cache × HttpResponse :=
  let projects' := setCache projects key data
  if saveOk then (projects', ⟨200, .emptyObj⟩)
  else (projects', ⟨500, .errorSaveFailed⟩)

/-- JS property assignment `obj[name] = v` on an object literal: replace the
value of an existing key in place, else append the new key. Building block
of the object spread below. -/
def setField : Fields → String → String → Fields
  | [], name, v => [(name, v)]
  | kv :: rest, name, v =>
    if kv.1 = name then (name, v) :: rest else kv :: setField rest name v

/-- JS object spread `{ ...base-already-built, ...fields }`: assign each
field of `fields` in order into `base`, later assignments overwriting
earlier keys. -/
def spreadInto (base : Fields) (fields : Fields) : Fields :=
  fields.foldl (fun acc kv => setField acc kv.1 kv.2) base

/-- The document `saveProject` writes as the `$set` of its upsert
(src/src/routes/root.ts lines 158-162): the object literal
`{ packageName, ...data }` — the key `packageName` bound to the handler's
route key first, then the request body spread over it, so a `packageName`
field inside the body overwrites the route key's value. -/
def saveProjectDoc (packageName : String) (data : ProjectData) : Fields :=
  spreadInto [("packageName", packageName)] data.fields

/-- The startup-load destructuring `const { packageName, _id, ...projectData }
= doc` (src/src/routes/root.ts line 125, src/unnamed/part_001 line 73): the
rest object keeps every field except `packageName` and `_id`, in order. -/
def stripLoadFields : Fields → Fields
  | [] => []
  | kv :: rest =>
    if kv.1 = "packageName" ∨ kv.1 = "_id" then stripLoadFields rest
    else kv :: stripLoadFields rest

/-- One iteration of the startup-load `forEach` (src/src/routes/root.ts lines
124-129): when the document's `packageName` is JS-truthy (present and
non-empty), assign the destructured rest object into the cache under that
name; otherwise skip the document. -/
def loadStep (cache : Cache) (doc : Fields) : Cache :=
  match getField doc "packageName" with
  | some pn => if pn = "" then cache else setCache cache pn ⟨stripLoadFields doc⟩
  | none => cache

/-- The startup load of `initMongoDB` (src/src/routes/root.ts lines 122-129;
identically `connectToMongoDB`, src/unnamed/part_001 lines 70-77): reset the
cache to `{}` and fold `loadStep` over the fetched documents in order. -/
def initLoad (documents : List Fields) : Cache :=
  documents.foldl loadStep (fun _ => none)

/-! Helper lemmas shared by the claim theorems. -/

/-- The inline country comparison of `isIPFromBrazil` agrees with the
spec-level resolved country: the check passes exactly when the resolved
country is `"BR"`. -/
theorem isIPFromBrazil_iff (ip : Option String) (geo : GeoOutcome) :
    isIPFromBrazil ip geo = true ↔ resolveCountry ip geo = some "BR" := by
  cases ip with
  | none => simp [isIPFromBrazil, resolveCountry]
  | some ipStr =>
    cases geo with
    | country c =>
      by_cases h1 : ipStr = "" <;> by_cases h2 : c = "" <;>
        simp [isIPFromBrazil, resolveCountry, h1, h2]
    | failure =>
      by_cases h1 : ipStr = "" <;> simp [isIPFromBrazil, resolveCountry, h1]

/-- The inline country comparison of `isAccessibleRegion` against a non-empty
target country agrees with the spec-level resolved country. -/
theorem isAccessibleRegion_iff (ip : Option String) (geo : GeoOutcome)
    (cc : String) (hcc : cc ≠ "") :
    isAccessibleRegion ip (some cc) geo = true ↔ resolveCountry ip geo = some cc := by
  cases ip with
  | none => simp [isAccessibleRegion, resolveCountry]
  | some ipStr =>
    cases geo with
    | country c =>
      by_cases h1 : ipStr = "" <;> by_cases h2 : c = "" <;>
        simp [isAccessibleRegion, resolveCountry, h1, h2, hcc]
    | failure =>
      by_cases h1 : ipStr = "" <;> simp [isAccessibleRegion, resolveCountry, h1, hcc]

/-- `/br/:key` always answers with HTTP status 200, whatever the cache, the
header, or the geolocation outcome. -/
theorem brHandler_status_200 (projects : Cache) (key : String)
    (xForwardedFor : Option String) (geo : GeoOutcome) :
    (brHandler projects key xForwardedFor geo).status = 200 := by
  cases hk : projects key with
  | none => simp [brHandler, hk]
  | some p =>
    cases hip : p.ip with
    | some ipVal => simp only [brHandler, hk, hip]; split_ifs <;> rfl
    | none => simp only [brHandler, hk, hip]; split_ifs <;> rfl

/-- Any record body served by `/br/:key` is exactly the record the cache
holds under the requested key. -/
theorem brHandler_record_from_cache (projects : Cache) (key : String)
    (xForwardedFor : Option String) (geo : GeoOutcome) (q : ProjectData)
    (h : (brHandler projects key xForwardedFor geo).body = .record q) :
    projects key = some q := by
  cases hk : projects key with
  | none => simp [brHandler, hk] at h
  | some p =>
    cases hip : p.ip with
    | some ipVal =>
      simp only [brHandler, hk, hip] at h
      split_ifs at h <;> simp_all
    | none =>
      simp only [brHandler, hk, hip] at h
      split_ifs at h
      simp_all

/-! The claims. -/

/-- C1: for a record stored under `key` with no `ip` field, `GET /br/:key`
returns the record body iff the resolved country is `"BR"` and
`record.code == "2"`; when the resolved country is not `"BR"` the response
body is `{}` for every value of `record.code`, including absent. -/
theorem br_no_ip_brazil_gate (projects : Cache) (key : String) (p : ProjectData)
    (xf : Option String) (geo : GeoOutcome)
    (hk : projects key = some p) (hip : p.ip = none) :
    ((brHandler projects key xf geo).body = .record p ↔
      resolveCountry (extractRequestIp xf) geo = some "BR" ∧ p.code = some "2") ∧
    (resolveCountry (extractRequestIp xf) geo ≠ some "BR" →
      (brHandler projects key xf geo).body = .emptyObj) := by
  have hbr := isIPFromBrazil_iff (extractRequestIp xf) geo
  cases hb : isIPFromBrazil (extractRequestIp xf) geo with
  | true =>
    have hres : resolveCountry (extractRequestIp xf) geo = some "BR" := hbr.mp hb
    by_cases hc : p.code = some "2" <;>
      simp [brHandler, hk, hip, hb, hc, hres]
  | false =>
    have hres : resolveCountry (extractRequestIp xf) geo ≠ some "BR" := by
      intro hcon
      simp [hbr.mpr hcon] at hb
    by_cases hc : p.code = some "1" <;>
      simp [brHandler, hk, hip, hb, hc, hres]

/-- Concrete instance of C1: a `code:"2"` record without `ip`, requested from
a client whose IP resolves to Brazil. -/
def brDemoCacheNoIp : Cache :=
  fun k => if k = "app.noip" then some ⟨[("code", "2")]⟩ else none

/-- Witness for C1 at the concrete cache `brDemoCacheNoIp`. -/
theorem br_no_ip_brazil_gate_witness :
    ((brHandler brDemoCacheNoIp "app.noip" (some "203.0.113.7") (GeoOutcome.country "BR")).body =
        ResponseBody.record ⟨[("code", "2")]⟩ ↔
      resolveCountry (extractRequestIp (some "203.0.113.7")) (GeoOutcome.country "BR") =
          some "BR" ∧
        ProjectData.code ⟨[("code", "2")]⟩ = some "2") ∧
    (resolveCountry (extractRequestIp (some "203.0.113.7")) (GeoOutcome.country "BR") ≠
        some "BR" →
      (brHandler brDemoCacheNoIp "app.noip" (some "203.0.113.7")
            (GeoOutcome.country "BR")).body =
        ResponseBody.emptyObj) :=
  br_no_ip_brazil_gate brDemoCacheNoIp "app.noip" ⟨[("code", "2")]⟩
    (some "203.0.113.7") (GeoOutcome.country "BR") (by decide) (by decide)

/-- C2: for a record whose `ip` field is present and equals `""`, `GET
/br/:key` returns the record body iff `record.code == "2"`, and the response
does not depend on the geolocation outcome at all (no lookup is consulted on
this branch). -/
theorem br_empty_ip_code_gate (projects : Cache) (key : String) (p : ProjectData)
    (xf : Option String) (geo geo' : GeoOutcome)
    (hk : projects key = some p) (hip : p.ip = some "") :
    ((brHandler projects key xf geo).body = .record p ↔ p.code = some "2") ∧
    brHandler projects key xf geo = brHandler projects key xf geo' := by
  constructor
  · by_cases hc : p.code = some "2" <;> simp [brHandler, hk, hip, hc]
  · by_cases hc : p.code = some "2" <;> simp [brHandler, hk, hip, hc]

/-- Concrete instance of C2: a hidden record (`code:"1"`) with `ip:""`. -/
def brDemoCacheEmptyIp : Cache :=
  fun k => if k = "app.emptyip" then some ⟨[("code", "1"), ("ip", "")]⟩ else none

/-- Witness for C2 at the concrete cache `brDemoCacheEmptyIp`. -/
theorem br_empty_ip_code_gate_witness :
    ((brHandler brDemoCacheEmptyIp "app.emptyip" (some "203.0.113.7")
          GeoOutcome.failure).body =
        ResponseBody.record ⟨[("code", "1"), ("ip", "")]⟩ ↔
      ProjectData.code ⟨[("code", "1"), ("ip", "")]⟩ = some "2") ∧
    brHandler brDemoCacheEmptyIp "app.emptyip" (some "203.0.113.7") GeoOutcome.failure =
      brHandler brDemoCacheEmptyIp "app.emptyip" (some "203.0.113.7")
        (GeoOutcome.country "BR") :=
  br_empty_ip_code_gate brDemoCacheEmptyIp "app.emptyip"
    ⟨[("code", "1"), ("ip", "")]⟩ (some "203.0.113.7") GeoOutcome.failure
    (GeoOutcome.country "BR") (by decide) (by decide)

/-- C3: for a record whose `ip` field is a non-empty country code `cc`, `GET
/br/:key` returns the record body iff the resolved country equals `cc` and
`record.code == "2"`; in every other case (country differs or is unknown, or
the code is not `"2"`) the body is `{}`. -/
theorem br_country_ip_gate (projects : Cache) (key : String) (p : ProjectData)
    (xf : Option String) (geo : GeoOutcome) (cc : String)
    (hk : projects key = some p) (hip : p.ip = some cc) (hcc : cc ≠ "") :
    ((brHandler projects key xf geo).body = .record p ↔
      resolveCountry (extractRequestIp xf) geo = some cc ∧ p.code = some "2") ∧
    ((resolveCountry (extractRequestIp xf) geo ≠ some cc ∨ p.code ≠ some "2") →
      (brHandler projects key xf geo).body = .emptyObj) := by
  have har := isAccessibleRegion_iff (extractRequestIp xf) geo cc hcc
  cases ha : isAccessibleRegion (extractRequestIp xf) (some cc) geo with
  | true =>
    have hres : resolveCountry (extractRequestIp xf) geo = some cc := har.mp ha
    by_cases hc : p.code = some "2" <;>
      simp [brHandler, hk, hip, hcc, ha, hc, hres]
  | false =>
    have hres : resolveCountry (extractRequestIp xf) geo ≠ some cc := by
      intro hcon
      simp [har.mpr hcon] at ha
    by_cases hc : p.code = some "2" <;>
      simp [brHandler, hk, hip, hcc, ha, hc, hres]

/-- Concrete instance of C3: a `code:"2"` record gated to France, requested
from a client whose IP resolves to Germany. -/
def brDemoCacheCountryIp : Cache :=
  fun k => if k = "app.fr" then some ⟨[("code", "2"), ("ip", "FR")]⟩ else none

/-- Witness for C3 at the concrete cache `brDemoCacheCountryIp`. -/
theorem br_country_ip_gate_witness :
    ((brHandler brDemoCacheCountryIp "app.fr" (some "203.0.113.7")
          (GeoOutcome.country "DE")).body =
        ResponseBody.record ⟨[("code", "2"), ("ip", "FR")]⟩ ↔
      resolveCountry (extractRequestIp (some "203.0.113.7")) (GeoOutcome.country "DE") =
          some "FR" ∧
        ProjectData.code ⟨[("code", "2"), ("ip", "FR")]⟩ = some "2") ∧
    ((resolveCountry (extractRequestIp (some "203.0.113.7")) (GeoOutcome.country "DE") ≠
          some "FR" ∨
        ProjectData.code ⟨[("code", "2"), ("ip", "FR")]⟩ ≠ some "2") →
      (brHandler brDemoCacheCountryIp "app.fr" (some "203.0.113.7")
            (GeoOutcome.country "DE")).body =
        ResponseBody.emptyObj) :=
  br_country_ip_gate brDemoCacheCountryIp "app.fr" ⟨[("code", "2"), ("ip", "FR")]⟩
    (some "203.0.113.7") (GeoOutcome.country "DE") "FR" (by decide) (by decide)
    (by decide)

/-- C4: a record whose `code` is not `"2"` (including absent) is never
returned by `GET /br/:key`: for every `ip` field shape and every geolocation
outcome the response is exactly HTTP 200 with body `{}`. -/
theorem br_hidden_code_never_exposed (projects : Cache) (key : String)
    (p : ProjectData) (xf : Option String) (geo : GeoOutcome)
    (hk : projects key = some p) (hc : p.code ≠ some "2") :
    brHandler projects key xf geo = ⟨200, .emptyObj⟩ := by
  cases hip : p.ip with
  | some ipVal =>
    by_cases he : ipVal = "" <;>
      cases ha : isAccessibleRegion (extractRequestIp xf) (some ipVal) geo <;>
        simp [brHandler, hk, hip, he, ha, hc]
  | none =>
    cases hb : isIPFromBrazil (extractRequestIp xf) geo <;>
      by_cases h1 : p.code = some "1" <;>
        simp [brHandler, hk, hip, hb, h1, hc]

/-- Concrete instance of C4: a record with no `code` field at all. -/
def brDemoCacheNoCode : Cache :=
  fun k => if k = "app.nocode" then some ⟨[("name", "demo")]⟩ else none

/-- Witness for C4 at the concrete cache `brDemoCacheNoCode`. -/
theorem br_hidden_code_never_exposed_witness :
    brHandler brDemoCacheNoCode "app.nocode" (some "203.0.113.7")
        (GeoOutcome.country "BR") =
      ⟨200, ResponseBody.emptyObj⟩ :=
  br_hidden_code_never_exposed brDemoCacheNoCode "app.nocode" ⟨[("name", "demo")]⟩
    (some "203.0.113.7") (GeoOutcome.country "BR") (by decide) (by decide)

/-- C6: for a key absent from the cache, `GET /br/:key` answers HTTP 200 with
body `{}` — never 404 — so a missing record is indistinguishable from a
visibility denial. -/
theorem br_missing_key_empty (projects : Cache) (key : String)
    (xf : Option String) (geo : GeoOutcome) (hk : projects key = none) :
    brHandler projects key xf geo = ⟨200, .emptyObj⟩ ∧
    (brHandler projects key xf geo).status ≠ 404 := by
  constructor <;> simp [brHandler, hk]

/-- Witness for C6 on the empty cache. -/
theorem br_missing_key_empty_witness :
    brHandler (fun _ => none) "app.miss" (some "203.0.113.7") GeoOutcome.failure =
        ⟨200, ResponseBody.emptyObj⟩ ∧
      (brHandler (fun _ => none) "app.miss" (some "203.0.113.7")
          GeoOutcome.failure).status ≠ 404 :=
  br_missing_key_empty (fun _ => none) "app.miss" (some "203.0.113.7")
    GeoOutcome.failure (by decide)

/-- C7: a geolocation failure — absent (or JS-falsy) client IP, network
error, timeout, or a response without a usable countryCode — resolves to
unknown country: every country check yields `false`, the request is still
answered with HTTP 200 (never an error), and the body follows the decision
table evaluated at unknown country (only the `ip == ""` branch can still
expose the record). -/
theorem geo_failure_degrades_to_unknown (xf : Option String) (geo : GeoOutcome)
    (cc : Option String) (projects : Cache) (key : String) (p : ProjectData)
    (h : extractRequestIp xf = none ∨ extractRequestIp xf = some "" ∨
      geo = GeoOutcome.failure)
    (hk : projects key = some p) :
    resolveCountry (extractRequestIp xf) geo = none ∧
    isIPFromBrazil (extractRequestIp xf) geo = false ∧
    isAccessibleRegion (extractRequestIp xf) cc geo = false ∧
    (brHandler projects key xf geo).status = 200 ∧
    ((brHandler projects key xf geo).body = .record p ↔
      p.ip = some "" ∧ p.code = some "2") := by
  have hres : resolveCountry (extractRequestIp xf) geo = none := by
    rcases h with h | h | h
    · simp [resolveCountry, h]
    · simp [resolveCountry, h]
    · subst h
      cases hip : extractRequestIp xf with
      | none => simp [resolveCountry]
      | some s => by_cases hs : s = "" <;> simp [resolveCountry, hs]
  have hbr : isIPFromBrazil (extractRequestIp xf) geo = false := by
    cases hb : isIPFromBrazil (extractRequestIp xf) geo with
    | false => rfl
    | true =>
      have := (isIPFromBrazil_iff (extractRequestIp xf) geo).mp hb
      simp [hres] at this
  have harAll : ∀ cc', isAccessibleRegion (extractRequestIp xf) cc' geo = false := by
    intro cc'
    rcases h with h | h | h
    · cases cc' <;> simp [isAccessibleRegion, h]
    · cases cc' <;> simp [isAccessibleRegion, h]
    · subst h
      cases hip : extractRequestIp xf with
      | none => cases cc' <;> simp [isAccessibleRegion]
      | some s =>
        cases cc' with
        | none => simp [isAccessibleRegion]
        | some c =>
          by_cases hs : s = "" <;> by_cases hc : c = "" <;>
            simp [isAccessibleRegion, hs, hc]
  refine ⟨hres, hbr, harAll cc, brHandler_status_200 projects key xf geo, ?_⟩
  cases hip : p.ip with
  | some ipVal =>
    by_cases he : ipVal = ""
    · subst he
      by_cases hc : p.code = some "2" <;> simp [brHandler, hk, hip, hc]
    · simp [brHandler, hk, hip, he, harAll (some ipVal)]
  | none =>
    by_cases h1 : p.code = some "1" <;> simp [brHandler, hk, hip, hbr, h1]

/-- Concrete instance of C7: the `x-forwarded-for` header is missing, so the
client IP is absent, even though the lookup itself would have answered. -/
def brDemoCacheGeoFail : Cache :=
  fun k => if k = "app.geo" then some ⟨[("code", "2")]⟩ else none

/-- Witness for C7: absent header, record without `ip`. -/
theorem geo_failure_degrades_to_unknown_witness :
    resolveCountry (extractRequestIp none) (GeoOutcome.country "BR") = none ∧
    isIPFromBrazil (extractRequestIp none) (GeoOutcome.country "BR") = false ∧
    isAccessibleRegion (extractRequestIp none) (some "FR") (GeoOutcome.country "BR") =
      false ∧
    (brHandler brDemoCacheGeoFail "app.geo" none (GeoOutcome.country "BR")).status =
      200 ∧
    ((brHandler brDemoCacheGeoFail "app.geo" none (GeoOutcome.country "BR")).body =
        ResponseBody.record ⟨[("code", "2")]⟩ ↔
      ProjectData.ip ⟨[("code", "2")]⟩ = some "" ∧
        ProjectData.code ⟨[("code", "2")]⟩ = some "2") :=
  geo_failure_degrades_to_unknown none (GeoOutcome.country "BR") (some "FR")
    brDemoCacheGeoFail "app.geo" ⟨[("code", "2")]⟩ (Or.inl (by decide)) (by decide)

/-- C5 counterexample: the `POST /p/update/:key` variant at
src/src/routes/root.ts lines 621-640 does answer a 5xx on this path — when
the durable save fails it responds 500 with `{"error":"Failed to save
project"}`, not 200 with `{}`. -/
theorem update_500_variant_counterexample :
    (updateProject500 (fun _ => none) "com.example.app" ⟨[("code", "2")]⟩
        false).2.status = 500 ∧
    (updateProject500 (fun _ => none) "com.example.app" ⟨[("code", "2")]⟩
        false).2 ≠ ⟨200, ResponseBody.emptyObj⟩ := by
  constructor <;> decide

/-- C5 amended: in the converged `POST /p/update/:key` handler
(src/src/routes/root.ts lines 285-305, and likewise src/unnamed/part_001),
every request is answered HTTP 200 with body `{}` whatever the durable-write
outcome — the in-memory cache write alone suffices for success, and no 5xx
is possible on this path. -/
theorem update_converged_always_200 (projects : Cache) (key : String)
    (data : ProjectData) (saveOk : Bool) :
    (updateProject projects key data saveOk).2 = ⟨200, .emptyObj⟩ ∧
    (updateProject projects key data saveOk).2.status ≠ 500 := by
  cases saveOk <;> simp [updateProject]

/-- C8: `POST /p/update/:key` with body `data` followed immediately by `GET
/pp/:key` returns HTTP 200 with exactly the record `data` (hence a
superset-equal match of every field of `data`), even when the durable write
failed, because the cache is assigned synchronously before the durable write
is awaited and `/pp/:key` reads from that cache. -/
theorem update_then_pp_roundtrip (projects : Cache) (key : String)
    (data : ProjectData) (saveOk : Bool) :
    (updateProject projects key data saveOk).1 key = some data ∧
    ppHandler (updateProject projects key data saveOk).1 key =
      ⟨200, .record data⟩ := by
  have hcache : (updateProject projects key data saveOk).1 key = some data := by
    cases saveOk <;> simp [updateProject, setCache]
  exact ⟨hcache, by simp [ppHandler, hcache]⟩

/-! Field-level lemmas for the startup load (C9) and the save document
(C10). -/

/-- A field removed by the load destructuring cannot be looked up in the rest
object. -/
theorem getField_stripLoadFields (doc : Fields) (name : String)
    (h : name = "packageName" ∨ name = "_id") :
    getField (stripLoadFields doc) name = none := by
  induction doc with
  | nil => rfl
  | cons kv rest ih =>
    by_cases hp : kv.1 = "packageName" ∨ kv.1 = "_id"
    · simpa [stripLoadFields, hp] using ih
    · have hne : kv.1 ≠ name := by rcases h with h | h <;> subst h <;> tauto
      simpa [stripLoadFields, hp, getField, hne] using ih

/-- Every record the startup-load fold puts in the cache is the rest object
of some fetched document. -/
theorem loadFold_strip (documents : List Fields) :
    ∀ cache : Cache,
      (∀ k p, cache k = some p → ∃ doc, p.fields = stripLoadFields doc) →
      ∀ k p, (documents.foldl loadStep cache) k = some p →
        ∃ doc, p.fields = stripLoadFields doc := by
  induction documents with
  | nil => intro cache hc k p hp; exact hc k p hp
  | cons d rest ih =>
    intro cache hc k p hp
    rw [List.foldl_cons] at hp
    refine ih (loadStep cache d) ?_ k p hp
    intro k' p' h'
    cases hg : getField d "packageName" with
    | none =>
      simp only [loadStep, hg] at h'
      exact hc k' p' h'
    | some pn =>
      simp only [loadStep, hg] at h'
      by_cases hpn : pn = ""
      · rw [if_pos hpn] at h'; exact hc k' p' h'
      · rw [if_neg hpn] at h'
        unfold setCache at h'
        by_cases hk' : k' = pn
        · rw [if_pos hk'] at h'
          injection h' with h''
          exact ⟨d, by rw [← h'']⟩
        · rw [if_neg hk'] at h'; exact hc k' p' h'

/-- JS property assignment changes exactly the assigned key. -/
theorem getField_setField (fs : Fields) (name v m : String) :
    getField (setField fs name v) m = if m = name then some v else getField fs m := by
  induction fs with
  | nil =>
    by_cases h : m = name
    · subst h; simp [setField, getField]
    · simp [setField, getField, h, Ne.symm h]
  | cons kv rest ih =>
    by_cases h1 : kv.1 = name
    · by_cases h2 : m = name
      · subst h2; simp [setField, getField, h1]
      · have h3 : name ≠ m := fun hh => h2 hh.symm
        simp [setField, getField, h1, h2, h3]
    · by_cases h3 : kv.1 = m
      · have h4 : m ≠ name := by rw [← h3]; exact h1
        simp [setField, getField, h1, h3, h4]
      · simp [setField, getField, h1, h3, ih]

/-- Spreading fields none of which carry the key `m` leaves `m`'s value in
the base object unchanged. -/
theorem getField_spreadInto_of_not_mem (fields : Fields) (m : String)
    (h : ∀ kv ∈ fields, kv.1 ≠ m) :
    ∀ base : Fields, getField (spreadInto base fields) m = getField base m := by
  induction fields with
  | nil => intro base; rfl
  | cons kv rest ih =>
    intro base
    have hkv : kv.1 ≠ m := h kv (List.mem_cons_self kv rest)
    have hrest : ∀ kv' ∈ rest, kv'.1 ≠ m := fun kv' hm =>
      h kv' (List.mem_cons_of_mem kv hm)
    have hstep : spreadInto base (kv :: rest) =
        spreadInto (setField base kv.1 kv.2) rest := rfl
    rw [hstep, ih hrest, getField_setField, if_neg (Ne.symm hkv)]

/-- Spreading a duplicate-free object over a base object makes every field of
the spread object win: the JS object literal `{ ...base, ...fields }`. -/
theorem getField_spreadInto_of_mem (fields : Fields) (m v : String)
    (hnodup : (fields.map Prod.fst).Nodup) (h : getField fields m = some v) :
    ∀ base : Fields, getField (spreadInto base fields) m = some v := by
  induction fields with
  | nil => simp [getField] at h
  | cons kv rest ih =>
    intro base
    have hstep : spreadInto base (kv :: rest) =
        spreadInto (setField base kv.1 kv.2) rest := rfl
    rw [hstep]
    rw [List.map_cons, List.nodup_cons] at hnodup
    by_cases hk : kv.1 = m
    · have hv : kv.2 = v := by simpa [getField, hk] using h
      have hnm : ∀ kv' ∈ rest, kv'.1 ≠ m := by
        intro kv' hmem hcon
        apply hnodup.1
        rw [hk, ← hcon]
        exact List.mem_map_of_mem Prod.fst hmem
      rw [getField_spreadInto_of_not_mem rest m hnm, getField_setField,
        if_pos hk.symm, hv]
    · have h' : getField rest m = some v := by simpa [getField, hk] using h
      exact ih hnodup.2 h' (setField base kv.1 kv.2)

/-- C9 (implicit): every record the startup load places in the cache has its
`packageName` and `_id` fields removed, and `GET /pp/:key`, `GET /p/all` and
`GET /br/:key` serve that cached record as-is (so without those two fields);
a record written through `POST /p/update/:key` is instead cached, and served
by `/pp/:key`, with exactly the fields of the request body. -/
theorem startup_load_strips_identifiers (documents : List Fields) (key : String)
    (p q : ProjectData) (xf : Option String) (geo : GeoOutcome)
    (projects : Cache) (key' : String) (data : ProjectData) (saveOk : Bool)
    (h : initLoad documents key = some p) :
    getField p.fields "packageName" = none ∧
    getField p.fields "_id" = none ∧
    ppHandler (initLoad documents) key = ⟨200, .record p⟩ ∧
    pAllHandler (initLoad documents) key = some p ∧
    ((brHandler (initLoad documents) key xf geo).body = .record q → q = p) ∧
    (updateProject projects key' data saveOk).1 key' = some data ∧
    ppHandler (updateProject projects key' data saveOk).1 key' =
      ⟨200, .record data⟩ := by
  obtain ⟨doc, hdoc⟩ := loadFold_strip documents (fun _ => none)
    (by intro k pp hpp; simp at hpp) key p h
  have hcache : (updateProject projects key' data saveOk).1 key' = some data := by
    cases saveOk <;> simp [updateProject, setCache]
  refine ⟨?_, ?_, ?_, h, ?_, hcache, ?_⟩
  · rw [hdoc]; exact getField_stripLoadFields doc _ (Or.inl rfl)
  · rw [hdoc]; exact getField_stripLoadFields doc _ (Or.inr rfl)
  · simp [ppHandler, h]
  · intro hq
    have hq' := brHandler_record_from_cache (initLoad documents) key xf geo q hq
    rw [h] at hq'
    exact (Option.some.inj hq').symm
  · simp [ppHandler, hcache]

/-- Concrete startup documents for the C9 witness. -/
def loadDemoDocuments : List Fields :=
  [[("packageName", "app.z"), ("_id", "6427af"), ("code", "2"), ("ip", "")]]

/-- Witness for C9 on `loadDemoDocuments`. -/
theorem startup_load_strips_identifiers_witness :
    getField (ProjectData.mk [("code", "2"), ("ip", "")]).fields "packageName" =
      none ∧
    getField (ProjectData.mk [("code", "2"), ("ip", "")]).fields "_id" = none ∧
    ppHandler (initLoad loadDemoDocuments) "app.z" =
      ⟨200, ResponseBody.record ⟨[("code", "2"), ("ip", "")]⟩⟩ ∧
    pAllHandler (initLoad loadDemoDocuments) "app.z" =
      some ⟨[("code", "2"), ("ip", "")]⟩ ∧
    ((brHandler (initLoad loadDemoDocuments) "app.z" (some "203.0.113.7")
          GeoOutcome.failure).body =
        ResponseBody.record ⟨[("code", "2"), ("ip", "")]⟩ →
      (ProjectData.mk [("code", "2"), ("ip", "")]) =
        ⟨[("code", "2"), ("ip", "")]⟩) ∧
    (updateProject (fun _ => none) "app.w" ⟨[("a", "b")]⟩ false).1 "app.w" =
      some ⟨[("a", "b")]⟩ ∧
    ppHandler (updateProject (fun _ => none) "app.w" ⟨[("a", "b")]⟩ false).1
        "app.w" =
      ⟨200, ResponseBody.record ⟨[("a", "b")]⟩⟩ :=
  startup_load_strips_identifiers loadDemoDocuments "app.z"
    ⟨[("code", "2"), ("ip", "")]⟩ ⟨[("code", "2"), ("ip", "")]⟩
    (some "203.0.113.7") GeoOutcome.failure (fun _ => none) "app.w"
    ⟨[("a", "b")]⟩ false (by decide)

/-- C10 (implicit): the durable-write document is the object literal
`{ packageName, ...data }` with the request body spread last, so a body that
carries its own `packageName` field with a value `v` different from the route
key makes the stored document's `packageName` equal to `v` — while the
in-memory cache keeps the very same record under the route key: the cache key
and the durable document's identity field diverge. -/
theorem save_doc_body_packageName_wins (projects : Cache) (key : String)
    (data : ProjectData) (saveOk : Bool) (v : String)
    (hnodup : (data.fields.map Prod.fst).Nodup)
    (hv : getField data.fields "packageName" = some v) (hne : v ≠ key) :
    getField (saveProjectDoc key data) "packageName" = some v ∧
    getField (saveProjectDoc key data) "packageName" ≠ some key ∧
    (updateProject projects key data saveOk).1 key = some data := by
  have h1 : getField (saveProjectDoc key data) "packageName" = some v :=
    getField_spreadInto_of_mem data.fields "packageName" v hnodup hv
      [("packageName", key)]
  refine ⟨h1, ?_, ?_⟩
  · rw [h1]
    intro hcon
    exact hne (Option.some.inj hcon)
  · cases saveOk <;> simp [updateProject, setCache]

/-- Witness for C10: route key `com.example.app`, body carrying
`packageName: "other.app"`. -/
theorem save_doc_body_packageName_wins_witness :
    getField (saveProjectDoc "com.example.app"
        ⟨[("packageName", "other.app"), ("code", "2")]⟩) "packageName" =
      some "other.app" ∧
    getField (saveProjectDoc "com.example.app"
        ⟨[("packageName", "other.app"), ("code", "2")]⟩) "packageName" ≠
      some "com.example.app" ∧
    (updateProject (fun _ => none) "com.example.app"
        ⟨[("packageName", "other.app"), ("code", "2")]⟩ false).1
        "com.example.app" =
      some ⟨[("packageName", "other.app"), ("code", "2")]⟩ :=
  save_doc_body_packageName_wins (fun _ => none) "com.example.app"
    ⟨[("packageName", "other.app"), ("code", "2")]⟩ false "other.app"
    (by decide) (by decide) (by decide)

end GP
